import Mathlib

/-!
Verification of the OpenTelegramBot poll-dispatch-act engine
(src/project/Application.cpp) against its natural-language specification.

The C++ core is shallowly embedded: the domain entities become Lean
structures, the exception taxonomy becomes an inductive error type, the
stateful poll cycle becomes an explicit state-passing function, and code
that can throw returns `Except`/`Option` values.  Machine integers
(`uint32_t` offsets and lengths, `uint64_t` update ids) are modelled as
`Nat`: no claim under study involves wraparound, and the ids the service
assigns are far below 2^64.  Character strings (`std::string`, indexed
per character by the extraction loop) are modelled as `List Char`.
-/

namespace OpenTelegramBot

/-! ### Error taxonomy (Application.cpp lines 21-62, 1123-1138)

The four exception classes of `reactor::telegram::exceptions` become one
inductive type.  `DeadWall` is the transport-timeout condition thrown by
the cURL driver on `CURLE_OPERATION_TIMEOUTED`. -/

inductive TLError where
  | BadAuthorization
  | BotNotFound
  | UnknownError (code : Int)
  | DeadWall
deriving DecidableEq, Repr

/-- Constant `reactor::telegram::error_codes::BadAuthorization` (line 60). -/
def error_codes.BadAuthorization : Int := 401

/-- Constant `reactor::telegram::error_codes::NotFound` (line 61). -/
def error_codes.NotFound : Int := 404

/-- Classification performed by
`ErrorHandler::processServerFailureByJsonRepresentation`
(Application.cpp lines 1123-1138): classifies the `error_code` of a
non-ok service envelope into the exception that is thrown. -/
def processServerFailure (errorCode : Int) : TLError :=
  if errorCode = error_codes.BadAuthorization then TLError.BadAuthorization
  else if errorCode = error_codes.NotFound then TLError.BotNotFound
  else TLError.UnknownError errorCode

/-! ### Domain model (Application.cpp lines 101-219)

Only the fields the dispatcher and the poll engine read are carried;
the media descriptors (`Sticker`, `Video`, `PhotoSize`), chat-member
records and the forward/reply cross references are opaque payload the
claims never touch, so they are omitted from the embedding. -/

structure MessageEntity where
  type : String
  offset : Nat
  length : Nat
deriving DecidableEq, Repr

/-- Tag constant `MessageEntity::BotCommand` (line 143) marking a command. -/
def MessageEntity.BotCommandTag : String := "bot_command"

structure Message where
  message_id : Nat
  date : Nat
  text : Option (List Char)
  entities : Option (List MessageEntity)
deriving DecidableEq, Repr

structure Update where
  update_id : Nat
  message : Option Message
  edited_message : Option Message
deriving DecidableEq, Repr

/-- Record `reactor::telegram::BotCommand` (lines 214-219): derived, not
transmitted. -/
structure BotCommand where
  command : List Char
  offset : Nat
  length : Nat
deriving DecidableEq, Repr

/-! ### Bot-command extraction (Server::processUpdate, lines 1077-1091)

The C++ loop reads `(*message->text)[charId]` for
`charId = entity->offset; charId < entity->length; charId++` with no
presence or bounds check.  The embedding is total: `readTextChar`
returns `none` when the text is absent or the index is out of range,
and that `none` (the error branch standing for the C++ undefined
behaviour) propagates through the extraction. -/

/-- One character read of the optional message text; `none` is the
error branch (absent text or out-of-bounds index). -/
def readTextChar (text : Option (List Char)) (i : Nat) : Option Char :=
  match text with
  | none => none
  | some t => t[i]?

/-- The body of the extraction loop, recursing on the number of
remaining iterations (`count = length - charId` initially, so the loop
runs for `charId = offset, ..., length - 1` exactly as the C++ `for`).
Stops early, keeping what was accumulated, at the first `@`. -/
def extractGo (text : Option (List Char)) : Nat → Nat → Option (List Char)
  | _, 0 => some []
  | charId, count + 1 =>
    match readTextChar text charId with
    | none => none
    | some c =>
      if c = '@' then some []
      else (extractGo text (charId + 1) count).map (fun rest => c :: rest)

/-- The command text built by the loop at lines 1083-1089: characters
at indices `offset, offset+1, ..., length-1` of the message text,
truncated just before the first `@`. -/
def extractCommandText (text : Option (List Char)) (offset length : Nat) :
    Option (List Char) :=
  extractGo text offset (length - offset)

/-- Spec-side description of the extracted command text (§8 of the
spec): the characters of `t` at index positions `offset` up to (not
including) `length`, truncated just before the first `@` in that
range.  Stated with the standard slice operations so it can be compared
with the loop-shaped `extractCommandText` from the source. -/
def specCommandText (t : List Char) (offset length : Nat) : List Char :=
  ((t.drop offset).take (length - offset)).takeWhile (fun c => c != '@')

/-! ### Update dispatcher (Server::processUpdate, lines 1067-1120)

The three `ITelergamMessageProcessor` callbacks become observable
dispatch events, emitted in invocation order.  `processUpdate` returns
`none` exactly when the extraction loop reaches its error branch. -/

inductive DispatchEvent where
  | onMessage (m : Message)
  | onBotCommands (m : Message) (commands : List BotCommand)
  | onMessageEdited (m : Message)
deriving DecidableEq, Repr

/-- The entity scan at lines 1077-1093: walks the entity list in order,
extracts a `BotCommand` for every entity tagged `bot_command`, carrying
the extracted text together with the entity's `offset` and `length`
unchanged.  Entities with any other tag are skipped without touching
the text. -/
def collectCommands (m : Message) : List MessageEntity → Option (List BotCommand)
  | [] => some []
  | e :: rest =>
    if e.type = MessageEntity.BotCommandTag then
      match extractCommandText m.text e.offset e.length with
      | none => none
      | some cmd =>
        (collectCommands m rest).map
          (fun cmds => BotCommand.mk cmd e.offset e.length :: cmds)
    else collectCommands m rest

/-- Dispatch of one update, `Server::processUpdate` (lines 1067-1120).  When the message is
present and its entities yield at least one command, the command-batch
callback fires and the early `return` at line 1102 skips the
edited-message branch; otherwise the plain-message callback fires (when
a message is present) and then the edited-message callback (when an
edited message is present). -/
def processUpdate (u : Update) : Option (List DispatchEvent) :=
  let editedEvents : List DispatchEvent :=
    match u.edited_message with
    | some me => [DispatchEvent.onMessageEdited me]
    | none => []
  match u.message with
  | none => some editedEvents
  | some m =>
    match m.entities with
    | none => some (DispatchEvent.onMessage m :: editedEvents)
    | some es =>
      match collectCommands m es with
      | none => none
      | some cmds =>
        if cmds.isEmpty then some (DispatchEvent.onMessage m :: editedEvents)
        else some [DispatchEvent.onBotCommands m cmds]

/-! ### Transport envelopes and `getUpdates` / `checkToken`
(Application.cpp lines 900-949)

The HTTP transport is an external collaborator; what the engine sees is
either a transport timeout (the cURL driver throws `DeadWall`) or a
decoded envelope with an `ok` flag, an `error_code` on failure and a
batch of updates on success.  `getUpdates` raises the classified error
for a non-ok envelope and returns the decoded batch otherwise. -/

inductive FetchOutcome where
  | transportTimeout
  | envelope (ok : Bool) (errorCode : Int) (updates : List Update)
deriving DecidableEq, Repr

/-- Fetch step `TLPollEngine::getUpdates` (lines 900-921) as a function of
the transport's answer. -/
def getUpdates (f : FetchOutcome) : Except TLError (List Update) :=
  match f with
  | FetchOutcome.transportTimeout => Except.error TLError.DeadWall
  | FetchOutcome.envelope ok errorCode updates =>
    if ok then Except.ok updates
    else Except.error (processServerFailure errorCode)

/-- The transport's answer to the `getMe` identity call made by
`checkToken`; the decoded user itself is irrelevant to the claims. -/
inductive IdentifyOutcome where
  | transportTimeout
  | envelope (ok : Bool) (errorCode : Int)
deriving DecidableEq, Repr

/-- Credential validation `TLPollEngine::checkToken` (lines 929-949):
throws the classified
error on a non-ok envelope, succeeds otherwise. -/
def checkToken (idf : IdentifyOutcome) : Except TLError Unit :=
  match idf with
  | IdentifyOutcome.transportTimeout => Except.error TLError.DeadWall
  | IdentifyOutcome.envelope ok errorCode =>
    if ok then Except.ok ()
    else Except.error (processServerFailure errorCode)

/-- Lifecycle entry `TLPollEngine::start` (lines 866-878): runs `checkToken`
synchronously; the `std::thread` constructor at line 873 is reached
only if `checkToken` returned, so a validation failure propagates out
of `start` with the worker never spawned.  The result records the
raised error (if any) and whether the worker was spawned. -/
def start (idf : IdentifyOutcome) : Option TLError × Bool :=
  match checkToken idf with
  | Except.error e => (some e, false)
  | Except.ok _ => (none, true)

/-! ### Action queue and drain (Application.cpp lines 742-854, 990-1005)

An enqueued `TLOutcomingAction` is identified by a tag; what matters to
the engine is only the outcome of `onAction` against the transport,
supplied as an environment function `exec` (`none` = the HTTP call
returned, `some e` = it threw).  The drain loop at lines 995-1004 takes
the front action, runs `onAction`, and only then pops: a throwing
action is never popped, the exception propagates, and the rest of the
queue is left untouched. -/

structure QAction where
  actionId : Nat
deriving DecidableEq, Repr

/-- The STAGE 3 drain loop (lines 990-1005).  Returns the actions that
were executed (in order), the queue as it remains, and the exception
that escaped the loop, if any. -/
def drainQueue (exec : QAction → Option TLError) :
    List QAction → List QAction × List QAction × Option TLError
  | [] => ([], [], none)
  | a :: rest =>
    match exec a with
    | some e => ([], a :: rest, some e)
    | none =>
      let result := drainQueue exec rest
      (a :: result.1, result.2.1, result.2.2)

/-! ### Poll cycle and worker loop (TLPollEngine::workerProcedure,
lines 951-1007)

Engine state is the cursor `m_lastUpdateId` and the pending
`m_actionsQueue` (the `m_isDead` flag is treated with the lifecycle
machine below).  The dispatch callback is `Server::onUpdates` seen
through the actions it enqueues: a function from the batch to the list
of actions pushed during the dispatch step. -/

structure EngineState where
  lastUpdateId : Nat
  actionsQueue : List QAction
deriving DecidableEq, Repr

/-- The `topId` computation at lines 971-979: fold over the batch
starting from the current `m_lastUpdateId`, keeping the larger id. -/
def computeTopId (lastUpdateId : Nat) (updates : List Update) : Nat :=
  updates.foldl
    (fun topId u => if u.update_id > topId then u.update_id else topId)
    lastUpdateId

/-- What one iteration of the worker loop produced. -/
structure CycleOutcome where
  state : EngineState
  dispatched : List (List Update)
  executed : List QAction
  thrown : Option TLError
deriving DecidableEq, Repr

/-- One iteration of the `while (!m_isDead)` body (lines 960-1006):
fetch; on an empty batch `continue`; otherwise compute `topId`, set the
cursor to `topId + 1` (`setTopUpdateId`, line 984), run the dispatch
callback (which enqueues actions), then drain the queue.  An exception
from `getUpdates` or from an action's `onAction` is not caught anywhere
in `workerProcedure`; `thrown` records it escaping the iteration. -/
def pollCycleBody (callback : List Update → List QAction)
    (exec : QAction → Option TLError) (st : EngineState) (f : FetchOutcome) :
    CycleOutcome :=
  match getUpdates f with
  | Except.error e => CycleOutcome.mk st [] [] (some e)
  | Except.ok updates =>
    if updates.isEmpty then CycleOutcome.mk st [] [] none
    else
      let topId := computeTopId st.lastUpdateId updates
      let st1 := EngineState.mk (topId + 1) st.actionsQueue
      let queue := st1.actionsQueue ++ callback updates
      let drained := drainQueue exec queue
      CycleOutcome.mk (EngineState.mk st1.lastUpdateId drained.2.1) [updates]
        drained.1 drained.2.2

/-- The worker loop run against a finite trace of fetch outcomes, the
termination flag never being set.  An exception escaping an iteration
ends the loop immediately (there is no try/catch in `workerProcedure`,
so nothing resumes it); otherwise the loop continues with the next
fetch.  Returns the final state, the batches dispatched, and the
escaped exception, if any. -/
def runWorker (callback : List Update → List QAction)
    (exec : QAction → Option TLError) :
    EngineState → List FetchOutcome →
    EngineState × List (List Update) × Option TLError
  | st, [] => (st, [], none)
  | st, f :: fs =>
    let out := pollCycleBody callback exec st f
    match out.thrown with
    | some e => (out.state, out.dispatched, some e)
    | none =>
      let tail := runWorker callback exec out.state fs
      (tail.1, out.dispatched ++ tail.2.1, tail.2.2)

/-! ### Lifecycle: stop / isReadyToDestroy (lines 880-885, 960)

The shared flag `m_isDead` and the worker's progress through the loop
are modelled as a two-field state machine.  `stop()` (line 880-883)
only sets the flag; the worker tests it at the top of each iteration
(line 960) and exits when it is set; `isReadyToDestroy()` (line 885)
returns the flag itself. -/

inductive WorkerPhase where
  /-- the worker is about to evaluate the `while (!m_isDead)` test -/
  | atLoopTop
  /-- the worker is inside the loop body (a cycle is in flight) -/
  | inCycle
  /-- the worker has left the loop; the body will not execute again -/
  | exited
deriving DecidableEq, Repr

structure LifecycleState where
  isDead : Bool
  phase : WorkerPhase
deriving DecidableEq, Repr

/-- Termination request `TLPollEngine::stop` (lines 880-883): sets
`m_isDead`; the worker's progress is untouched. -/
def stopEngine (st : LifecycleState) : LifecycleState :=
  LifecycleState.mk true st.phase

/-- Observability predicate `TLPollEngine::isReadyToDestroy` (line 885):
returns `m_isDead`. -/
def isReadyToDestroy (st : LifecycleState) : Bool :=
  st.isDead

/-- The worker's own transitions: the `while (!m_isDead)` test at line
960 (enter the body or exit), and finishing the body (back to the
test). -/
def workerStep (st : LifecycleState) : LifecycleState :=
  match st.phase with
  | WorkerPhase.atLoopTop =>
    if st.isDead then LifecycleState.mk st.isDead WorkerPhase.exited
    else LifecycleState.mk st.isDead WorkerPhase.inCycle
  | WorkerPhase.inCycle => LifecycleState.mk st.isDead WorkerPhase.atLoopTop
  | WorkerPhase.exited => st

/-! ### Helper lemmas -/

/-- When every index the loop visits is within the text, the loop-shaped
extraction agrees with the slice-and-truncate description and in
particular never reaches its error branch. -/
lemma extractGo_succ (text : Option (List Char)) (charId count : Nat) :
    extractGo text charId (count + 1) =
      match readTextChar text charId with
      | none => none
      | some c =>
        if c = '@' then some []
        else (extractGo text (charId + 1) count).map (fun rest => c :: rest) :=
  rfl

lemma extractGo_eq_spec (t : List Char) :
    ∀ count charId, charId + count ≤ t.length →
    extractGo (some t) charId count =
      some (((t.drop charId).take count).takeWhile (fun c => c != '@')) := by
  intro count
  induction count with
  | zero => intro charId _; simp [extractGo]
  | succ n ih =>
    intro charId h
    have hlt : charId < t.length := by omega
    have hread : readTextChar (some t) charId = some (t.get ⟨charId, hlt⟩) := by
      simp [readTextChar, List.getElem?_eq_getElem hlt]
    have hdrop : t.drop charId = t.get ⟨charId, hlt⟩ :: t.drop (charId + 1) :=
      List.drop_eq_getElem_cons hlt
    have hstep : extractGo (some t) charId (n + 1) =
        if t.get ⟨charId, hlt⟩ = '@' then some []
        else (extractGo (some t) (charId + 1) n).map
          (fun rest => t.get ⟨charId, hlt⟩ :: rest) := by
      rw [extractGo_succ, hread]
    rw [hstep, hdrop, List.take_succ_cons, List.takeWhile_cons]
    by_cases hat : t.get ⟨charId, hlt⟩ = '@'
    · rw [hat]
      simp
    · have hih := ih (charId + 1) (by omega)
      rw [if_neg hat, hih]
      simp only [List.get_eq_getElem] at hat
      simp [hat]

/-- Extraction-level corollary: with the text present and the entity's
`length` within the text, `extractCommandText` computes the
slice-and-truncate description (and in particular succeeds). -/
lemma extractCommandText_eq_spec (t : List Char) (offset length : Nat)
    (h : length ≤ t.length) :
    extractCommandText (some t) offset length =
      some (specCommandText t offset length) := by
  unfold extractCommandText specCommandText
  by_cases hol : offset ≤ length
  · exact extractGo_eq_spec t (length - offset) offset (by omega)
  · have h0 : length - offset = 0 := by omega
    rw [h0]
    simp [extractGo]

/-- Spec-side maximum of the `update_id`s of a batch. -/
def batchMaxId (updates : List Update) : Nat :=
  (updates.map Update.update_id).foldl Nat.max 0

lemma foldl_max_init (l : List Nat) :
    ∀ a, l.foldl Nat.max a = Nat.max a (l.foldl Nat.max 0) := by
  induction l with
  | nil => intro a; simp
  | cons x xs ih =>
    intro a
    simp only [List.foldl_cons]
    rw [ih (Nat.max a x), ih (Nat.max 0 x),
      show Nat.max 0 x = x from Nat.max_eq_right (Nat.zero_le x)]
    exact Nat.max_assoc a x (xs.foldl Nat.max 0)

/-- The source's running-maximum fold (initialised from the current
cursor) equals the maximum of the cursor and the batch maximum. -/
lemma computeTopId_eq_max (l : List Update) :
    ∀ a, computeTopId a l = Nat.max a (batchMaxId l) := by
  induction l with
  | nil => intro a; simp [computeTopId, batchMaxId]
  | cons u us ih =>
    intro a
    have h1 : computeTopId a (u :: us) =
        computeTopId (if u.update_id > a then u.update_id else a) us := rfl
    have h3 : batchMaxId (u :: us) = Nat.max u.update_id (batchMaxId us) := by
      simp only [batchMaxId, List.map_cons, List.foldl_cons]
      rw [foldl_max_init,
        show Nat.max 0 u.update_id = u.update_id from
          Nat.max_eq_right (Nat.zero_le u.update_id)]
    rw [h1, ih, h3]
    split
    · rename_i hgt
      have hax : a ≤ Nat.max u.update_id (batchMaxId us) :=
        Nat.le_trans (Nat.le_of_lt hgt) (Nat.le_max_left u.update_id (batchMaxId us))
      exact (Nat.max_eq_right hax).symm
    · rename_i hle
      have h4 : Nat.max a u.update_id = a := Nat.max_eq_left (by omega)
      calc Nat.max a (batchMaxId us)
          = Nat.max (Nat.max a u.update_id) (batchMaxId us) := by rw [h4]
        _ = Nat.max a (Nat.max u.update_id (batchMaxId us)) :=
            Nat.max_assoc a u.update_id (batchMaxId us)

/-- Unfolding of the entity scan at an entity tagged `bot_command`
whose extraction succeeds. -/
lemma collectCommands_cons_bot_some (m : Message) (e : MessageEntity)
    (rest : List MessageEntity) (cmd : List Char)
    (h : e.type = MessageEntity.BotCommandTag)
    (hx : extractCommandText m.text e.offset e.length = some cmd) :
    collectCommands m (e :: rest) =
      (collectCommands m rest).map
        (fun cmds => BotCommand.mk cmd e.offset e.length :: cmds) := by
  simp [collectCommands, h, hx]

/-- Unfolding of the entity scan at an entity tagged `bot_command`
whose extraction reaches the error branch. -/
lemma collectCommands_cons_bot_none (m : Message) (e : MessageEntity)
    (rest : List MessageEntity)
    (h : e.type = MessageEntity.BotCommandTag)
    (hx : extractCommandText m.text e.offset e.length = none) :
    collectCommands m (e :: rest) = none := by
  simp [collectCommands, h, hx]

/-- Unfolding of the entity scan at an entity with any other tag. -/
lemma collectCommands_cons_other (m : Message) (e : MessageEntity)
    (rest : List MessageEntity) (h : ¬e.type = MessageEntity.BotCommandTag) :
    collectCommands m (e :: rest) = collectCommands m rest := by
  simp [collectCommands, h]

/-- A scan over entities none of which is tagged `bot_command` yields
no commands (and never touches the text). -/
lemma collectCommands_no_bot (m : Message) :
    ∀ es : List MessageEntity,
    (∀ e ∈ es, ¬e.type = MessageEntity.BotCommandTag) →
    collectCommands m es = some [] := by
  intro es
  induction es with
  | nil => intro _; rfl
  | cons e rest ih =>
    intro h
    have he : ¬e.type = MessageEntity.BotCommandTag := h e (by simp)
    have hrest := ih (fun x hx => h x (by simp [hx]))
    rw [collectCommands_cons_other m e rest he, hrest]

/-- A successful scan over entities at least one of which is tagged
`bot_command` yields at least one command. -/
lemma collectCommands_nonempty (m : Message) :
    ∀ (es : List MessageEntity) (cmds : List BotCommand),
    collectCommands m es = some cmds →
    (∃ e ∈ es, e.type = MessageEntity.BotCommandTag) → cmds ≠ [] := by
  intro es
  induction es with
  | nil =>
    intro cmds _ hex
    rcases hex with ⟨e, he, _⟩
    simp at he
  | cons e rest ih =>
    intro cmds hc hex
    by_cases ht : e.type = MessageEntity.BotCommandTag
    · cases hx : extractCommandText m.text e.offset e.length with
      | none => rw [collectCommands_cons_bot_none m e rest ht hx] at hc; simp at hc
      | some cmd =>
        rw [collectCommands_cons_bot_some m e rest cmd ht hx] at hc
        cases hrest : collectCommands m rest with
        | none => rw [hrest] at hc; simp at hc
        | some restCmds =>
          rw [hrest, Option.map_some', Option.some.injEq] at hc
          rw [← hc]
          simp
    · rw [collectCommands_cons_other m e rest ht] at hc
      rcases hex with ⟨x, hxmem, hxt⟩
      rcases List.mem_cons.mp hxmem with h1 | h2
      · exact absurd (h1 ▸ hxt) ht
      · exact ih cmds hc ⟨x, h2, hxt⟩

/-! ### Claim theorems -/

/-- C7: for every non-ok service envelope, error code 401 is classified
as the invalid-credential condition (`BadAuthorization`), 404 as the
principal-not-found condition (`BotNotFound`), and every other code as
the unclassified condition (`UnknownError`) carrying that numeric
code. -/
theorem error_classification :
    processServerFailure 401 = TLError.BadAuthorization ∧
    processServerFailure 404 = TLError.BotNotFound ∧
    ∀ code : Int, code ≠ 401 → code ≠ 404 →
      processServerFailure code = TLError.UnknownError code := by
  refine ⟨rfl, rfl, ?_⟩
  intro code h1 h2
  simp [processServerFailure, error_codes.BadAuthorization, error_codes.NotFound,
    h1, h2]

/-- Witness for C7 at the concrete code 500. -/
theorem error_classification_witness :
    processServerFailure 500 = TLError.UnknownError 500 :=
  error_classification.2.2 500 (by decide) (by decide)

/-- C6: `start` runs the credential validation (`checkToken`, the
"who am I" call) synchronously before anything else; a validation
failure propagates out of `start` with the worker never spawned, and
only on success is the worker started. -/
theorem start_validation (idf : IdentifyOutcome) :
    (∀ e : TLError, checkToken idf = Except.error e →
      start idf = (some e, false)) ∧
    (checkToken idf = Except.ok () → start idf = (none, true)) := by
  constructor
  · intro e he
    simp [start, he]
  · intro h
    simp [start, h]

/-- Witness for C6: a 401 envelope on the identity call makes `start`
raise `BadAuthorization` without spawning the worker. -/
theorem start_validation_witness :
    start (IdentifyOutcome.envelope false 401) =
      (some TLError.BadAuthorization, false) :=
  (start_validation (IdentifyOutcome.envelope false 401)).1
    TLError.BadAuthorization rfl

/-- C2: for a `bot_command` entity over present message text `t` with
the entity's `length` within the text, the extracted command text is
exactly the characters of `t` at index positions from the entity's
`offset` up to (not including) the entity's `length`, truncated just
before the first `@` in that index range; and the emitted `BotCommand`
carries that text together with the entity's `offset` and `length`
unchanged. -/
theorem command_extraction (m : Message) (t : List Char) (e : MessageEntity)
    (rest : List MessageEntity) (restCmds : List BotCommand)
    (htext : m.text = some t) (htype : e.type = MessageEntity.BotCommandTag)
    (hlen : e.length ≤ t.length)
    (hrest : collectCommands m rest = some restCmds) :
    extractCommandText m.text e.offset e.length =
      some (specCommandText t e.offset e.length) ∧
    collectCommands m (e :: rest) =
      some (BotCommand.mk (specCommandText t e.offset e.length) e.offset e.length
        :: restCmds) := by
  have h1 : extractCommandText m.text e.offset e.length =
      some (specCommandText t e.offset e.length) := by
    rw [htext]
    exact extractCommandText_eq_spec t e.offset e.length hlen
  refine ⟨h1, ?_⟩
  rw [collectCommands_cons_bot_some m e rest (specCommandText t e.offset e.length)
    htype h1, hrest]
  rfl

/-- Witness for C2: the spec's own example, entity `{offset 1, length 5}`
over the text `/cmd@bot extra` (the extracted text is `cmd`). -/
theorem command_extraction_witness :
    extractCommandText
        (Message.mk 1 0
          (some ['/', 'c', 'm', 'd', '@', 'b', 'o', 't', ' ', 'e', 'x', 't', 'r', 'a'])
          (some [MessageEntity.mk "bot_command" 1 5])).text 1 5 =
      some (specCommandText
        ['/', 'c', 'm', 'd', '@', 'b', 'o', 't', ' ', 'e', 'x', 't', 'r', 'a'] 1 5) ∧
    collectCommands
        (Message.mk 1 0
          (some ['/', 'c', 'm', 'd', '@', 'b', 'o', 't', ' ', 'e', 'x', 't', 'r', 'a'])
          (some [MessageEntity.mk "bot_command" 1 5]))
        [MessageEntity.mk "bot_command" 1 5] =
      some [BotCommand.mk (specCommandText
        ['/', 'c', 'm', 'd', '@', 'b', 'o', 't', ' ', 'e', 'x', 't', 'r', 'a'] 1 5)
        1 5] :=
  command_extraction
    (Message.mk 1 0
      (some ['/', 'c', 'm', 'd', '@', 'b', 'o', 't', ' ', 'e', 'x', 't', 'r', 'a'])
      (some [MessageEntity.mk "bot_command" 1 5]))
    ['/', 'c', 'm', 'd', '@', 'b', 'o', 't', ' ', 'e', 'x', 't', 'r', 'a']
    (MessageEntity.mk "bot_command" 1 5) [] []
    rfl rfl (by decide) rfl

/-- C10: the extraction loop reads the text at every index from the
entity's `offset` up to (not including) its `length` with no bounds or
presence check; when the text is present and the entity's `length` does
not exceed the text's character count, every such read is in bounds and
the error branch of the total embedding is unreachable. -/
theorem extraction_in_bounds (t : List Char) (offset length : Nat)
    (h : length ≤ t.length) :
    (∀ i, i < length → (readTextChar (some t) i).isSome = true) ∧
    (extractCommandText (some t) offset length).isSome = true := by
  constructor
  · intro i hi
    have hlt : i < t.length := Nat.lt_of_lt_of_le hi h
    simp [readTextChar, List.getElem?_eq_getElem hlt]
  · rw [extractCommandText_eq_spec t offset length h]
    rfl

/-- Witness for C10 on the text `/abc` with entity bounds 0 and 4. -/
theorem extraction_in_bounds_witness :
    (∀ i, i < 4 → (readTextChar (some ['/', 'a', 'b', 'c']) i).isSome = true) ∧
    (extractCommandText (some ['/', 'a', 'b', 'c']) 0 4).isSome = true :=
  extraction_in_bounds ['/', 'a', 'b', 'c'] 0 4 (by decide)

/-- C1 counterexample: the claim says the cursor after processing a
non-empty batch equals `1 + max(update_id in B)`; with cursor 5 and the
fetched batch `[{update_id 3}]` the code sets the cursor to 6, because
`topId` is initialised from the current cursor, not to
`1 + 3 = 4` as claimed. -/
theorem cursor_claim_cex :
    (pollCycleBody (fun _ => []) (fun _ => none) (EngineState.mk 5 [])
        (FetchOutcome.envelope true 0 [Update.mk 3 none none])).state.lastUpdateId ≠
      1 + batchMaxId [Update.mk 3 none none] := by
  decide

/-- C1 (amended): after a successful fetch the cursor is unchanged when
the batch is empty, and becomes `1 + max({current cursor} ∪ update_ids
of the batch)` when it is non-empty (which is `1 + max(update_id in B)`
whenever some update id is at least the current cursor). -/
theorem cursor_advance (callback : List Update → List QAction)
    (exec : QAction → Option TLError) (st : EngineState) (f : FetchOutcome)
    (updates : List Update) (h : getUpdates f = Except.ok updates) :
    (pollCycleBody callback exec st f).state.lastUpdateId =
      if updates.isEmpty then st.lastUpdateId
      else Nat.max st.lastUpdateId (batchMaxId updates) + 1 := by
  unfold pollCycleBody
  rw [h]
  by_cases he : updates.isEmpty
  · simp [he]
  · simp [he, computeTopId_eq_max]

/-- Witness for C1 at cursor 0 and batch `[{update_id 10}]` (the
cursor becomes 11). -/
theorem cursor_advance_witness :
    (pollCycleBody (fun _ => []) (fun _ => none) (EngineState.mk 0 [])
        (FetchOutcome.envelope true 0 [Update.mk 10 none none])).state.lastUpdateId =
      if ([Update.mk 10 none none] : List Update).isEmpty then 0
      else Nat.max 0 (batchMaxId [Update.mk 10 none none]) + 1 :=
  cursor_advance (fun _ => []) (fun _ => none) (EngineState.mk 0 [])
    (FetchOutcome.envelope true 0 [Update.mk 10 none none])
    [Update.mk 10 none none] rfl

/-- C3 counterexample: the claim says the poll loop retries from the
Fetch step of the next cycle after a fetch failure; with a transport
timeout on the first fetch and a successful batch available at the next
cycle, the code never dispatches that batch — the uncaught exception
ends the loop. -/
theorem fetch_failure_no_retry_cex :
    (runWorker (fun _ => []) (fun _ => none) (EngineState.mk 0 [])
        [FetchOutcome.transportTimeout,
          FetchOutcome.envelope true 0 [Update.mk 10 none none]]) =
      (EngineState.mk 0 [], [], some TLError.DeadWall) ∧
    [Update.mk 10 none none] ∉
      (runWorker (fun _ => []) (fun _ => none) (EngineState.mk 0 [])
        [FetchOutcome.transportTimeout,
          FetchOutcome.envelope true 0 [Update.mk 10 none none]]).2.1 := by
  decide

/-- C3 (amended): when the Fetch step fails, the current cycle aborts
before the cursor advance — the state (cursor and queue) is unchanged,
nothing is dispatched, nothing is drained — and the exception
propagates out of the worker loop, which terminates without retrying
(there is no try/catch in `workerProcedure`). -/
theorem fetch_failure_aborts (callback : List Update → List QAction)
    (exec : QAction → Option TLError) (st : EngineState) (f : FetchOutcome)
    (e : TLError) (h : getUpdates f = Except.error e) (fs : List FetchOutcome) :
    pollCycleBody callback exec st f = CycleOutcome.mk st [] [] (some e) ∧
    runWorker callback exec st (f :: fs) = (st, [], some e) := by
  have h1 : pollCycleBody callback exec st f =
      CycleOutcome.mk st [] [] (some e) := by
    unfold pollCycleBody
    rw [h]
  refine ⟨h1, ?_⟩
  simp [runWorker, h1]

/-- Witness for C3 at a transport timeout with cursor 7. -/
theorem fetch_failure_aborts_witness :
    pollCycleBody (fun _ => []) (fun _ => none) (EngineState.mk 7 [])
        FetchOutcome.transportTimeout =
      CycleOutcome.mk (EngineState.mk 7 []) [] [] (some TLError.DeadWall) ∧
    runWorker (fun _ => []) (fun _ => none) (EngineState.mk 7 [])
        [FetchOutcome.transportTimeout] =
      (EngineState.mk 7 [], [], some TLError.DeadWall) :=
  fetch_failure_aborts (fun _ => []) (fun _ => none) (EngineState.mk 7 [])
    FetchOutcome.transportTimeout TLError.DeadWall rfl []

/-- C4 counterexample: the claim says the remaining queued actions are
still executed after one fails; with the queue `[a1, a2]` and `a1`
throwing, nothing is executed and `a2` stays in the queue
unexecuted. -/
theorem drain_continue_cex :
    (drainQueue
        (fun a => if a.actionId = 1 then some TLError.DeadWall else none)
        [QAction.mk 1, QAction.mk 2]).1 = [] ∧
    QAction.mk 2 ∉
      (drainQueue
        (fun a => if a.actionId = 1 then some TLError.DeadWall else none)
        [QAction.mk 1, QAction.mk 2]).1 := by
  decide

/-- C4 (amended): during the Drain step a failing action aborts the
drain: the actions before it execute in order, the exception propagates
(there is no catch around the drain loop), the failing action is not
popped, and it and every action after it remain queued unexecuted. -/
theorem drain_aborts_on_failure (exec : QAction → Option TLError)
    (done : List QAction) (a : QAction) (rest : List QAction) (e : TLError)
    (hdone : ∀ x ∈ done, exec x = none) (ha : exec a = some e) :
    drainQueue exec (done ++ a :: rest) = (done, a :: rest, some e) := by
  revert hdone
  induction done with
  | nil =>
    intro _
    simp [drainQueue, ha]
  | cons x xs ih =>
    intro hdone
    have hx : exec x = none := hdone x (List.mem_cons_self x xs)
    have ihx := ih (fun y hy => hdone y (List.mem_cons_of_mem x hy))
    simp [drainQueue, hx, ihx]

/-- Witness for C4: with queue `[a0, a1, a2]` and `a1` throwing, only
`a0` executes and `[a1, a2]` remain queued. -/
theorem drain_aborts_on_failure_witness :
    drainQueue
        (fun a => if a.actionId = 1 then some TLError.DeadWall else none)
        ([QAction.mk 0] ++ QAction.mk 1 :: [QAction.mk 2]) =
      ([QAction.mk 0], QAction.mk 1 :: [QAction.mk 2], some TLError.DeadWall) :=
  drain_aborts_on_failure
    (fun a => if a.actionId = 1 then some TLError.DeadWall else none)
    [QAction.mk 0] (QAction.mk 1) [QAction.mk 2] TLError.DeadWall
    (by decide) (by decide)

/-- C5 counterexample: the claim says `isReadyToDestroy()` remains
false until the worker has observed the flag and exited the loop; after
`stop()` is called while a cycle is in flight, `isReadyToDestroy()` is
already true although the worker has not exited. -/
theorem ready_to_destroy_cex :
    isReadyToDestroy
        (stopEngine (LifecycleState.mk false WorkerPhase.inCycle)) = true ∧
    (stopEngine (LifecycleState.mk false WorkerPhase.inCycle)).phase ≠
      WorkerPhase.exited := by
  decide

/-- C5 (amended): `isReadyToDestroy()` returns the termination flag
itself, so it is true immediately after `stop()` regardless of the
worker's phase (`stop` does not move the worker), and a worker that
reaches the loop test with the flag set exits. -/
theorem ready_to_destroy_after_stop (st : LifecycleState) :
    isReadyToDestroy (stopEngine st) = true ∧
    (stopEngine st).phase = st.phase ∧
    workerStep (LifecycleState.mk true WorkerPhase.atLoopTop) =
      LifecycleState.mk true WorkerPhase.exited :=
  ⟨rfl, rfl, rfl⟩

/-- C8: an update whose message is present but whose entities contain
no `bot_command` entity (including no entities at all) is routed to the
plain-message callback and never the command-batch callback; when at
least one `bot_command` entity is present (and the scan succeeds), only
the command-batch callback is invoked for that message. -/
theorem dispatch_routing (u : Update) (m : Message) (hm : u.message = some m) :
    ((∀ es, m.entities = some es →
        ∀ e ∈ es, ¬e.type = MessageEntity.BotCommandTag) →
      ∃ evs, processUpdate u = some evs ∧
        DispatchEvent.onMessage m ∈ evs ∧
        ∀ (m2 : Message) (cmds : List BotCommand),
          DispatchEvent.onBotCommands m2 cmds ∉ evs) ∧
    (∀ es cmds, m.entities = some es →
      (∃ e ∈ es, e.type = MessageEntity.BotCommandTag) →
      collectCommands m es = some cmds →
      processUpdate u = some [DispatchEvent.onBotCommands m cmds] ∧
      DispatchEvent.onMessage m ∉ [DispatchEvent.onBotCommands m cmds]) := by
  constructor
  · intro hno
    cases hent : m.entities with
    | none =>
      cases hed : u.edited_message with
      | none =>
        exact ⟨[DispatchEvent.onMessage m],
          by simp [processUpdate, hm, hent, hed], by simp, by simp⟩
      | some me =>
        exact ⟨[DispatchEvent.onMessage m, DispatchEvent.onMessageEdited me],
          by simp [processUpdate, hm, hent, hed], by simp, by simp⟩
    | some es =>
      have hcoll : collectCommands m es = some [] :=
        collectCommands_no_bot m es (hno es hent)
      cases hed : u.edited_message with
      | none =>
        exact ⟨[DispatchEvent.onMessage m],
          by simp [processUpdate, hm, hent, hed, hcoll], by simp, by simp⟩
      | some me =>
        exact ⟨[DispatchEvent.onMessage m, DispatchEvent.onMessageEdited me],
          by simp [processUpdate, hm, hent, hed, hcoll], by simp, by simp⟩
  · intro es cmds hent hex hcoll
    have hne : cmds ≠ [] := collectCommands_nonempty m es cmds hcoll hex
    have hne2 : cmds.isEmpty = false := by
      cases cmds with
      | nil => exact absurd rfl hne
      | cons c cs => rfl
    constructor
    · simp [processUpdate, hm, hent, hcoll, hne2]
    · simp

/-- Witness for C8: a plain message with no entities goes to the
plain-message callback only. -/
theorem dispatch_routing_witness :
    ∃ evs, processUpdate
        (Update.mk 7 (some (Message.mk 2 0 (some ['h', 'i']) none)) none) =
        some evs ∧
      DispatchEvent.onMessage (Message.mk 2 0 (some ['h', 'i']) none) ∈ evs ∧
      ∀ (m2 : Message) (cmds : List BotCommand),
        DispatchEvent.onBotCommands m2 cmds ∉ evs :=
  (dispatch_routing
      (Update.mk 7 (some (Message.mk 2 0 (some ['h', 'i']) none)) none)
      (Message.mk 2 0 (some ['h', 'i']) none) rfl).1
    (by intro es h; simp at h)

/-- C9 counterexample: the claim says both payload fields are handled
independently; for an update carrying both a message with a
`bot_command` entity and an edited message, only the command-batch
callback fires — the edited-message callback is skipped by the early
return at line 1102. -/
theorem both_fields_cex :
    processUpdate (Update.mk 10
        (some (Message.mk 1 0 (some ['/', 'a', 'b', 'c'])
          (some [MessageEntity.mk "bot_command" 0 4])))
        (some (Message.mk 3 0 none none))) =
      some [DispatchEvent.onBotCommands
        (Message.mk 1 0 (some ['/', 'a', 'b', 'c'])
          (some [MessageEntity.mk "bot_command" 0 4]))
        [BotCommand.mk ['/', 'a', 'b', 'c'] 0 4]] ∧
    DispatchEvent.onMessageEdited (Message.mk 3 0 none none) ∉
      [DispatchEvent.onBotCommands
        (Message.mk 1 0 (some ['/', 'a', 'b', 'c'])
          (some [MessageEntity.mk "bot_command" 0 4]))
        [BotCommand.mk ['/', 'a', 'b', 'c'] 0 4]] := by
  constructor
  · rfl
  · simp

/-- C9 (amended): when both the message and the edited-message fields
are present, both callbacks run only along the plain-message path
(message callback first, then edited-message callback); when the
message yields bot commands, the early return dispatches only the
command-batch callback and the edited-message callback is skipped. -/
theorem message_and_edited_dispatch (u : Update) (m me : Message)
    (hm : u.message = some m) (he : u.edited_message = some me) :
    ((m.entities = none ∨
        ∃ es, m.entities = some es ∧ collectCommands m es = some []) →
      processUpdate u =
        some [DispatchEvent.onMessage m, DispatchEvent.onMessageEdited me]) ∧
    (∀ es cmds, m.entities = some es → collectCommands m es = some cmds →
      cmds ≠ [] →
      processUpdate u = some [DispatchEvent.onBotCommands m cmds]) := by
  constructor
  · intro hcase
    rcases hcase with hent | ⟨es, hent, hcoll⟩
    · simp [processUpdate, hm, he, hent]
    · simp [processUpdate, hm, he, hent, hcoll]
  · intro es cmds hent hcoll hne
    have hne2 : cmds.isEmpty = false := by
      cases cmds with
      | nil => exact absurd rfl hne
      | cons c cs => rfl
    simp [processUpdate, hm, he, hent, hcoll, hne2]

/-- Witness for C9 on a plain message paired with an edited message:
both callbacks fire, message first. -/
theorem message_and_edited_dispatch_witness :
    processUpdate (Update.mk 11 (some (Message.mk 2 0 (some ['h', 'i']) none))
        (some (Message.mk 3 0 none none))) =
      some [DispatchEvent.onMessage (Message.mk 2 0 (some ['h', 'i']) none),
        DispatchEvent.onMessageEdited (Message.mk 3 0 none none)] :=
  (message_and_edited_dispatch
      (Update.mk 11 (some (Message.mk 2 0 (some ['h', 'i']) none))
        (some (Message.mk 3 0 none none)))
      (Message.mk 2 0 (some ['h', 'i']) none) (Message.mk 3 0 none none)
      rfl rfl).1 (Or.inl rfl)

end OpenTelegramBot
